import Mathlib

/-!
Verification of the treeherder ingestion orchestration engine
(`treeherder/etl/management/commands/ingest.py` and `treeherder/etl/common.py`)
against its natural-language specification.

Strings are modelled as Lean `String`s except where noted; Python lists become
Lean `List`s; a Python function that can raise is modelled with `Except`;
external collaborators (HTTP endpoints, the normalization collaborator
`handleMessage`, the `JobLoader`) are abstract function parameters.
-/

namespace Treeherder

/-! ## treeherder/etl/common.py -/

/--
Embeds the body of Python `str(guid).split("_", 1)[0]`: the longest prefix of
the character list strictly before the first underscore.
-/
def split_first : List Char → List Char
  | [] => []
  | c :: cs => if c = '_' then [] else c :: split_first cs

/--
`get_guid_root` from `treeherder/etl/common.py` (lines 46-50), with the guid
string modelled as a list of characters:
if `"_" in str(guid)` then `str(guid).split("_", 1)[0]` else `guid`.
-/
def get_guid_root (guid : List Char) : List Char :=
  if '_' ∈ guid then split_first guid else guid

/-! ## The stateToExchange inverse mapping (ingest.py lines 43-45)

Python builds `stateToExchange` by iterating `EXCHANGE_EVENT_MAP.items()`
(pairs `(exchange, state)`, in insertion order) and executing
`stateToExchange[value] = key`.  A Python `dict` is modelled by its lookup
behaviour, a function `String → Option String` (`none` = key absent, a
`d[k]` lookup on an absent key raises `KeyError`); an assignment overwrites
whatever value the key previously had.  `EXCHANGE_EVENT_MAP` itself lives in
`treeherder/etl/taskcluster_pulse/handler.py`, outside the sources given here,
so the build is stated for an arbitrary items list.
-/

/-- Python `d[key] = value` on a dict modelled by its lookup function. -/
def dictSet (d : String → Option String) (key value : String) : String → Option String :=
  fun k => if k = key then some value else d k

/--
`stateToExchange` built by ingest.py lines 43-45 from the forward
exchange-to-state items list `fwd`:
`for key, value in EXCHANGE_EVENT_MAP.items(): stateToExchange[value] = key`,
starting from the empty dict `stateToExchange = {}`.
-/
def stateToExchange (fwd : List (String × String)) : String → Option String :=
  fwd.foldl (fun d kv => dictSet d kv.2 kv.1) (fun _ => none)

/-! ## Run classification: handleTask (ingest.py lines 57-84)

A task-run and the task status shape consumed by `handleTask`.  The external
normalization collaborator `handleMessage` (from
`treeherder/etl/taskcluster_pulse/handler.py`, outside the given sources) is an
abstract parameter `hm : Message → TaskDef → Except E (List Job)`; an
`Except.error` models it raising.  The lookup `stateToExchange[run["state"]]`
is an abstract total function `s2e` (the claims never exercise a missing key).

Python local-variable semantics matter here: `taskRuns` starts *unbound*; it
is modelled as `Option (List Job)` with `none` = unbound.  When `handleMessage`
raises, the `except` clause logs and leaves `taskRuns` as it was; the
subsequent `if taskRuns:` then either raises `UnboundLocalError` (unbound,
which the `try` no longer covers, so it escapes `handleTask`) or re-tests the
*previous* iteration's value.
-/

structure Run where
  runId : Nat
  state : String
deriving DecidableEq

structure TaskStatus where
  taskId : String
  runs : List Run
deriving DecidableEq

structure Task (TaskDef : Type) where
  status : TaskStatus
  task : TaskDef

/-- The `message` dict built by `handleTask` for one run (ingest.py 63-73). -/
structure Message where
  exchange : String
  statusTaskId : String
  statusRuns : List Run
  runId : Nat
  root_url : String
deriving DecidableEq

/-- Observable events of one `handleTask` call, in program order. -/
inductive Ev (Job : Type) where
  /-- `handleMessage` was awaited with this message. -/
  | invoked (msg : Message)
  /-- `if taskRuns:` was truthy in the iteration for run `runId`: these job
  payloads were scheduled and awaited (`jobFutures` / `await_futures`). -/
  | processed (runId : Nat) (jobs : List Job)
deriving DecidableEq

/-- The message dict of ingest.py lines 63-73 for one `run`. -/
def mkMessage (s2e : String → String) (taskId : String) (runs : List Run)
    (root_url : String) (run : Run) : Message :=
  { exchange := s2e run.state
    statusTaskId := taskId
    statusRuns := runs
    runId := run.runId
    root_url := root_url }

/--
The `for run in reversed(runs)` loop body of `handleTask` (ingest.py 62-84),
iterated over an already-reversed run list.  Returns the event trace and
whether the loop aborted with an uncaught `UnboundLocalError` at
`if taskRuns:` (`true` = aborted; the remaining runs are never visited).
-/
def handleTaskLoop {TaskDef E Job : Type}
    (hm : Message → TaskDef → Except E (List Job)) (s2e : String → String)
    (taskId : String) (runs : List Run) (root_url : String) (taskDef : TaskDef)
    (taskRuns : Option (List Job)) : List Run → List (Ev Job) × Bool
  | [] => ([], false)
  | run :: rest =>
    let msg := mkMessage s2e taskId runs root_url run
    match hm msg taskDef with
    | .ok v =>
      let tail := handleTaskLoop hm s2e taskId runs root_url taskDef (some v) rest
      (Ev.invoked msg :: (if v.isEmpty then [] else [Ev.processed run.runId v]) ++ tail.1,
       tail.2)
    | .error _ =>
      match taskRuns with
      | none => ([Ev.invoked msg], true)
      | some v =>
        let tail := handleTaskLoop hm s2e taskId runs root_url taskDef (some v) rest
        (Ev.invoked msg :: (if v.isEmpty then [] else [Ev.processed run.runId v]) ++ tail.1,
         tail.2)

/-- `handleTask` (ingest.py 57-84): iterate the runs in reverse order with
`taskRuns` initially unbound. -/
def handleTask {TaskDef E Job : Type}
    (hm : Message → TaskDef → Except E (List Job)) (s2e : String → String)
    (task : Task TaskDef) (root_url : String) : List (Ev Job) × Bool :=
  handleTaskLoop hm s2e task.status.taskId task.status.runs root_url task.task
    none task.status.runs.reverse

/-- The messages passed to the normalization collaborator, in call order. -/
def invokedMessages {Job : Type} (evs : List (Ev Job)) : List Message :=
  evs.filterMap (fun e => match e with
    | .invoked m => some m
    | .processed _ _ => none)

/-! ## Pagination: fetchGroupTasks (ingest.py lines 87-101)

The group-listing endpoint is modelled by the finite chain of responses it
returns, one per request issued, in request order: request `i` (the first with
no continuation token, the later ones carrying the token of response `i-1`)
yields `pages[i]`.  The loop extends `tasks` with each response's task list,
reads `response.get("continuationToken")` and breaks exactly when it is
`None`.  `none` as overall result models the chain running out while the code
would still issue requests (outside the claims' finite-chain hypothesis).
-/

structure ListResponse (T : Type) where
  tasks : List T
  continuationToken : Option String
deriving DecidableEq

/-- The `while True` loop of `fetchGroupTasks`, consuming one response per
request and accumulating into `tasks` (Python `tasks.extend(...)`). -/
def fetchGroupTasksLoop {T : Type} (acc : List T) :
    List (ListResponse T) → Option (List T)
  | [] => none
  | r :: rest =>
    let acc := acc ++ r.tasks
    match r.continuationToken with
    | none => some acc
    | some _ => fetchGroupTasksLoop acc rest

/-- `fetchGroupTasks` (ingest.py 87-101) against an endpoint answering the
request sequence with `pages`. -/
def fetchGroupTasks {T : Type} (pages : List (ListResponse T)) : Option (List T) :=
  fetchGroupTasksLoop [] pages

/-! ## processTasks (ingest.py lines 104-116)

`fetchGroupTasks` is abstracted by its outcome.  Python semantics again: the
local `tasks` is only bound by the `try` body; when the fetch raises, the
`except` clause logs the error, and the following `if not tasks:` raises an
uncaught `UnboundLocalError` that escapes `processTasks`.
-/

inductive ProcessTasksResult (E T : Type) where
  /-- Returned normally; these tasks were dispatched as futures (possibly
  none, when the group was empty and `if not tasks: return` fired). -/
  | ok (dispatched : List T)
  /-- The fetch failure `logged` was caught and logged, then
  `UnboundLocalError` escaped at `if not tasks:`. -/
  | uncaughtNameError (logged : E)
deriving DecidableEq

/-- `processTasks` (ingest.py 104-116) given the fetch outcome. -/
def processTasks {E T : Type} (fetchResult : Except E (List T)) :
    ProcessTasksResult E T :=
  match fetchResult with
  | .ok tasks => .ok tasks
  | .error e => .uncaughtNameError e

/-! ## await_futures (ingest.py lines 133-139)

Each future is abstracted by its awaited outcome (`Except E Unit`).  The loop
awaits every future inside `try`, logging a raising one and continuing; the
`Except` result of the whole loop records whether any exception escapes it.
-/

/-- `await_futures` (ingest.py 133-139): returns the exceptions caught and
logged, in order; an `Except.error` result would model an exception escaping
the loop itself. -/
def await_futures {E F : Type} : List (Except E Unit) → Except F (List E)
  | [] => .ok []
  | fut :: rest =>
    let logged := match fut with
      | .ok _ => ([] : List E)
      | .error e => [e]
    match await_futures rest with
    | .ok later => .ok (logged ++ later)
    | .error f => .error f

/-! ## Load bridge: process_job_with_threads (ingest.py lines 142-146)

`acquire_connection` / `release_connection` come from
`treeherder/etl/db_semaphore.py`, outside the given sources.
Modelled from the spec: they acquire and release one scoped slot on a shared,
limited database-connection resource; the state counts the slots currently
held and records the acquire/release history.  `JobLoader().process_job` is
the abstract collaborator `pj`; an `Except.error` models it raising, and the
Python body has no `try`/`finally`, so the exception propagates immediately.
-/

inductive SemEv where
  | acquire
  | release
deriving DecidableEq

structure SemState where
  held : Nat
  trace : List SemEv
deriving DecidableEq

/-- Modelled from the spec: `acquire_connection` from
`treeherder/etl/db_semaphore.py` takes one slot of the shared
database-connection resource. -/
def acquire_connection (s : SemState) : SemState :=
  { held := s.held + 1, trace := s.trace ++ [SemEv.acquire] }

/-- Modelled from the spec: `release_connection` from
`treeherder/etl/db_semaphore.py` gives the slot back. -/
def release_connection (s : SemState) : SemState :=
  { held := s.held - 1, trace := s.trace ++ [SemEv.release] }

/-- `process_job_with_threads` (ingest.py 142-146): acquire, invoke the job
loader, release — with no exception handling around the loader call. -/
def process_job_with_threads {Job E : Type} (pj : Job → Except E Unit)
    (pulse_job : Job) (s : SemState) : Except E Unit × SemState :=
  let s1 := acquire_connection s
  match pj pulse_job with
  | .ok _ => (.ok (), release_connection s1)
  | .error e => (.error e, s1)

/-! ## Push-event adapter (ingest.py lines 175-255)

The GitHub comparison API (`compareUrl`, backed by `fetchApi`/`fetch_json`)
and the per-commit `fetch_json(parent["url"])` call are abstract parameters:
`compare base head` is the decoded comparison response and `fetchCommit url`
the decoded commit object (of which only `parents` is read).
-/

/-- One element of a `parents` array: only `url` and `sha` are read. -/
structure ParentRef where
  url : String
  sha : String
deriving DecidableEq

/-- A fetched commit object; only its `parents` list is read. -/
structure CommitData where
  parents : List ParentRef
deriving DecidableEq

/-- One element of a comparison response's `commits` array. -/
structure CompareCommit where
  message : String
  author : String
  committer : String
  sha : String
deriving DecidableEq

/-- A decoded comparison-API response. -/
structure CompareResponse where
  merge_base_commit : Option CommitData
  commits : List CompareCommit
deriving DecidableEq

/-- The flattened commit dict built by `query_data` (ingest.py 212-218). -/
structure OutCommit where
  message : String
  author : String
  committer : String
  id : String
deriving DecidableEq

/-- The commit dict appended by the `for _commit in compareResponse["commits"]`
loop of `query_data` (ingest.py 211-218). -/
def toOutCommit (c : CompareCommit) : OutCommit :=
  { message := c.message, author := c.author, committer := c.committer, id := c.sha }

/-- The `for parent in parents` loop of `query_data` (ingest.py 202-207):
fetch each parent commit in order; the first whose own `parents` list is
non-empty rebinds `eventBaseSha` to that parent's `sha` and breaks; if none
qualifies, `eventBaseSha` keeps its current value. -/
def findEventBaseSha (fetchCommit : String → CommitData) (eventBaseSha : String) :
    List ParentRef → String
  | [] => eventBaseSha
  | parent :: rest =>
    if (fetchCommit parent.url).parents.isEmpty then
      findEventBaseSha fetchCommit eventBaseSha rest
    else
      parent.sha

/-- `query_data` (ingest.py 188-220).  `compare base head` models
`compareUrl(repo_meta, base, head)`; `branch` is `repo_meta["branch"]`. -/
def query_data (compare : String → String → CompareResponse)
    (fetchCommit : String → CommitData) (branch : String) (commit : String) :
    String × List OutCommit :=
  let eventBaseSha := branch
  let compareResponse := compare branch commit
  let step : String × CompareResponse :=
    match compareResponse.merge_base_commit with
    | some mergeBaseCommit =>
      let eventBaseSha := findEventBaseSha fetchCommit eventBaseSha mergeBaseCommit.parents
      (eventBaseSha, compare eventBaseSha commit)
    | none => (eventBaseSha, compareResponse)
  (step.1, step.2.commits.map toOutCommit)

/-- A row of the external `Repository` table, as read by `repo_meta`. -/
structure RepositoryRow where
  name : String
  url : String
  branch : String
  tc_root_url : String
deriving DecidableEq

/-- The dict returned by `repo_meta` (ingest.py 175-185). -/
structure RepoMeta where
  url : String
  branch : String
  owner : String
  repo : String
  tc_root_url : String
deriving DecidableEq

/-- `repo_meta` (ingest.py 175-185): `Repository.objects.filter(name=project)[0]`
(indexing an empty queryset raises, modelled as `none`), then owner/repo from
positions 3 and 4 of `url.split("/")` (an out-of-range index also raises). -/
def repo_meta (db : List RepositoryRow) (project : String) : Option RepoMeta :=
  match (db.filter (fun r => r.name = project)).head? with
  | none => none
  | some r =>
    let splitUrl := r.url.splitOn "/"
    match splitUrl.get? 3, splitUrl.get? 4 with
    | some owner, some repo =>
      some { url := r.url, branch := r.branch, owner := owner, repo := repo,
             tc_root_url := r.tc_root_url }
    | _, _ => none

/-- The pulse dict built by `github_push_to_pulse` (ingest.py 223-242). -/
structure PushPulse where
  exchange : String
  routingKey : String
  organization : String
  event_base_sha : String
  event_head_sha : String
  commits : List OutCommit
  repository : String
deriving DecidableEq

/-- `github_push_to_pulse` (ingest.py 223-242). -/
def github_push_to_pulse (compare : String → String → CompareResponse)
    (fetchCommit : String → CommitData) (rm : RepoMeta) (commit : String) :
    PushPulse :=
  let qd := query_data compare fetchCommit rm.branch commit
  { exchange := "exchange/taskcluster-github/v1/push"
    routingKey := "primary." ++ rm.owner ++ "." ++ rm.repo
    organization := rm.owner
    event_base_sha := qd.1
    event_head_sha := commit
    commits := qd.2
    repository := rm.repo }

/-- What `ingestGitPush` hands to `PushLoader().process`: the pulse payload,
its exchange, and the repository's `tc_root_url` (ingest.py 248). -/
structure PushLoad where
  pulse : PushPulse
  tc_root_url : String
deriving DecidableEq

/-- `ingestGitPush` (ingest.py 245-248): resolves `repo_meta("fenix")` —
ignoring its `project` argument — and loads the push built from it;
`none` models `repo_meta` raising. -/
def ingestGitPush (compare : String → String → CompareResponse)
    (fetchCommit : String → CommitData) (db : List RepositoryRow)
    (project : String) (commitSha : String) : Option PushLoad :=
  match repo_meta db "fenix" with
  | none => none
  | some r =>
    let pulse := github_push_to_pulse compare fetchCommit r commitSha
    some { pulse := pulse, tc_root_url := r.tc_root_url }

/-! ## Theorems -/

/-! ### C10: get_guid_root -/

theorem split_first_eq_takeWhile (g : List Char) :
    split_first g = g.takeWhile (fun c => c ≠ '_') := by
  induction g with
  | nil => rfl
  | cons c cs ih =>
    by_cases h : c = '_'
    · simp [split_first, List.takeWhile_cons, h]
    · simp [split_first, List.takeWhile_cons, h, ih]

theorem underscore_not_mem_split_first (g : List Char) : '_' ∉ split_first g := by
  induction g with
  | nil => simp [split_first]
  | cons c cs ih =>
    by_cases h : c = '_'
    · simp [split_first, h]
    · simp only [split_first, if_neg h, List.mem_cons]
      rintro (rfl | hmem)
      · exact h rfl
      · exact ih hmem

/--
C10: `get_guid_root` is idempotent, and its value is the prefix of the guid
before the first underscore when one occurs in the guid, and the guid itself
otherwise.
-/
theorem get_guid_root_idempotent_prefix (g : List Char) :
    get_guid_root (get_guid_root g) = get_guid_root g ∧
    get_guid_root g = (if '_' ∈ g then g.takeWhile (fun c => c ≠ '_') else g) := by
  constructor
  · by_cases h : '_' ∈ g
    · simp [get_guid_root, h, underscore_not_mem_split_first]
    · simp [get_guid_root, h]
  · by_cases h : '_' ∈ g <;> simp [get_guid_root, h, split_first_eq_takeWhile]

/-! ### C8: the stateToExchange inverse build -/

theorem stateToExchange_foldl (fwd : List (String × String))
    (d : String → Option String) (s : String) :
    (fwd.foldl (fun d kv => dictSet d kv.2 kv.1) d) s
      = ((fwd.reverse.find? (fun kv => kv.2 = s)).map (fun kv => kv.1)).or (d s) := by
  induction fwd generalizing d with
  | nil => simp
  | cons kv fwd ih =>
    simp only [List.foldl_cons, List.reverse_cons, List.find?_append, ih]
    cases hfind : fwd.reverse.find? (fun kv => kv.2 = s) with
    | some kv2 => simp
    | none =>
      by_cases hs : kv.2 = s
      · subst hs
        simp [dictSet]
      · have hs2 : ¬(s = kv.2) := fun h => hs h.symm
        simp [dictSet, hs, hs2]

/--
C8 (counterexample): with the non-injective forward mapping
`[("e1", "s"), ("e2", "s")]` (two distinct exchange names for the same state),
the `stateToExchange` build of ingest.py lines 43-45 completes without any
failure and silently yields a lossy inverse: the state `"s"` maps to `"e2"`
and the forward entry `("e1", "s")` is no longer recoverable, contradicting
the claim that a non-injective forward mapping fails fast and is never
silently inverted lossily.
-/
theorem stateToExchange_duplicate_state_no_failure :
    ("e1", "s") ∈ [("e1", "s"), ("e2", "s")] ∧
    stateToExchange [("e1", "s"), ("e2", "s")] "s" = some "e2" ∧
    stateToExchange [("e1", "s"), ("e2", "s")] "s" ≠ some "e1" := by
  refine ⟨by decide, by decide, by decide⟩

/--
C8 (amended): building the inverse never fails; for every forward items list
(injective or not) and every state, the built `stateToExchange` maps the state
to the exchange name of the *last* forward pair carrying that state — on a
non-injective forward mapping later entries silently overwrite earlier ones.
-/
theorem stateToExchange_last_exchange_wins (fwd : List (String × String)) (s : String) :
    stateToExchange fwd s
      = (fwd.reverse.find? (fun kv => kv.2 = s)).map (fun kv => kv.1) := by
  have h := stateToExchange_foldl fwd (fun _ => none) s
  simpa [stateToExchange] using h

/-! ### C2: process_job_with_threads and the connection slot -/

/--
C2 (counterexample): when the job-loading collaborator raises,
`process_job_with_threads` does *not* release the acquired connection slot:
starting from zero slots held, the exit state holds one slot and its history
records an acquire but no release, contradicting the claim that the slot is
released on every exit path.
-/
theorem process_job_with_threads_leaks_slot_on_error :
    (process_job_with_threads (fun _ : Unit => (Except.error () : Except Unit Unit))
        () { held := 0, trace := [] }).2.held ≠ 0 ∧
    (process_job_with_threads (fun _ : Unit => (Except.error () : Except Unit Unit))
        () { held := 0, trace := [] }).2.trace = [SemEv.acquire] := by
  exact ⟨by decide, by decide⟩

/--
C2 (amended): `process_job_with_threads` acquires a connection slot before
invoking the job-loading collaborator; when the collaborator returns normally
the slot is released on exit, but when the collaborator raises the exception
propagates and the slot is *not* released (one extra slot stays held and no
release is recorded).
-/
theorem process_job_with_threads_acquire_release {Job E : Type}
    (pj : Job → Except E Unit) (pulse_job : Job) (s : SemState) :
    (∀ u, pj pulse_job = .ok u →
        process_job_with_threads pj pulse_job s
          = (.ok (), { held := s.held,
                       trace := s.trace ++ [SemEv.acquire, SemEv.release] })) ∧
    (∀ e, pj pulse_job = .error e →
        process_job_with_threads pj pulse_job s
          = (.error e, { held := s.held + 1, trace := s.trace ++ [SemEv.acquire] })) := by
  constructor
  · intro u hok
    simp [process_job_with_threads, hok, acquire_connection, release_connection]
  · intro e herr
    simp [process_job_with_threads, herr, acquire_connection]

/-- Witness for C2 (amended) at a concrete succeeding and a concrete raising
collaborator. -/
theorem process_job_with_threads_acquire_release_witness :
    process_job_with_threads (fun _ : Unit => (Except.ok () : Except Unit Unit))
        () { held := 3, trace := [] }
      = (.ok (), { held := 3, trace := [SemEv.acquire, SemEv.release] }) ∧
    process_job_with_threads (fun _ : Unit => (Except.error () : Except Unit Unit))
        () { held := 3, trace := [] }
      = (.error (), { held := 4, trace := [SemEv.acquire] }) := by
  constructor
  · exact (process_job_with_threads_acquire_release
      (fun _ : Unit => (Except.ok () : Except Unit Unit)) () { held := 3, trace := [] }).1 () rfl
  · exact (process_job_with_threads_acquire_release
      (fun _ : Unit => (Except.error () : Except Unit Unit)) () { held := 3, trace := [] }).2 () rfl

/-! ### C3: processTasks on a failing group-listing fetch -/

/--
C3: when the group-listing fetch raises, `processTasks` logs the failure but
then raises an uncaught `UnboundLocalError` at `if not tasks:` (the local
`tasks` was never bound), instead of treating the batch as empty and
returning normally as the claim states.
-/
theorem processTasks_fetch_error_escapes :
    processTasks (Except.error "HTTPError" : Except String (List String))
      = ProcessTasksResult.uncaughtNameError "HTTPError" ∧
    processTasks (Except.error "HTTPError" : Except String (List String))
      ≠ ProcessTasksResult.ok [] := by
  exact ⟨rfl, by decide⟩

/-! ### C4: await_futures awaits every unit and never raises -/

/-- The failures among the awaited outcomes, in order. -/
def unitFailures {E : Type} (fs : List (Except E Unit)) : List E :=
  fs.filterMap (fun f => match f with
    | .ok _ => none
    | .error e => some e)

/--
C4: however many units of the batch fail, `await_futures` returns normally
(never an escaping exception), and the exceptions it caught and logged are
exactly the failures of *all* units in order — so the failure of one unit
never prevents the remaining units from being awaited.
-/
theorem await_futures_awaits_all_never_raises {E F : Type}
    (fs : List (Except E Unit)) :
    await_futures (F := F) fs = .ok (unitFailures fs) := by
  induction fs with
  | nil => rfl
  | cons fut rest ih =>
    cases fut with
    | ok u => simp [await_futures, unitFailures, ih]
    | error e =>
      simp only [await_futures, ih]
      simp [unitFailures]

/-! ### C5: fetchGroupTasks pagination -/

theorem fetchGroupTasksLoop_concat {T : Type} (init : List (ListResponse T))
    (last : ListResponse T) (acc : List T)
    (hinit : ∀ r ∈ init, (ListResponse.continuationToken r).isSome)
    (hlast : last.continuationToken = none) :
    fetchGroupTasksLoop acc (init ++ [last])
      = some (acc ++ (init ++ [last]).flatMap ListResponse.tasks) := by
  induction init generalizing acc with
  | nil => simp [fetchGroupTasksLoop, hlast]
  | cons r rest ih =>
    obtain ⟨t, ht⟩ := Option.isSome_iff_exists.mp (hinit r (List.mem_cons_self r rest))
    have hrest : ∀ x ∈ rest, (ListResponse.continuationToken x).isSome :=
      fun x hx => hinit x (List.mem_cons_of_mem r hx)
    simp only [List.cons_append, fetchGroupTasksLoop, ht, List.append_eq]
    rw [ih (acc ++ r.tasks) hrest]
    simp

/--
C5: against a listing endpoint answering with a finite chain of pages in which
every page but the last carries a continuation token and the last carries
none, `fetchGroupTasks` terminates at the token-less page and returns exactly
the concatenation of all pages' task lists in page order.
-/
theorem fetchGroupTasks_returns_concatenation {T : Type}
    (init : List (ListResponse T)) (last : ListResponse T)
    (hinit : ∀ r ∈ init, (ListResponse.continuationToken r).isSome)
    (hlast : last.continuationToken = none) :
    fetchGroupTasks (init ++ [last])
      = some ((init ++ [last]).flatMap ListResponse.tasks) := by
  have h := fetchGroupTasksLoop_concat init last [] hinit hlast
  simpa [fetchGroupTasks] using h

/-- Witness for C5: three pages with continuation tokens `["a", "b", none]`
yield the concatenation of the three task lists, each task once, in order. -/
theorem fetchGroupTasks_returns_concatenation_witness :
    fetchGroupTasks
        [⟨["t1", "t2"], some "a"⟩, ⟨["t3"], some "b"⟩,
         (⟨["t4"], none⟩ : ListResponse String)]
      = some ["t1", "t2", "t3", "t4"] := by
  have h := fetchGroupTasks_returns_concatenation
    [⟨["t1", "t2"], some "a"⟩, ⟨["t3"], some "b"⟩]
    (⟨["t4"], none⟩ : ListResponse String) (by decide) rfl
  exact h.trans (by decide)

/-! ### C6: handleTask visits the runs newest-first -/

theorem invokedMessages_cons_invoked {Job : Type} (m : Message) (l : List (Ev Job)) :
    invokedMessages (Ev.invoked m :: l) = m :: invokedMessages l := by
  simp [invokedMessages]

theorem invokedMessages_cons_processed {Job : Type} (i : Nat) (js : List Job)
    (l : List (Ev Job)) :
    invokedMessages (Ev.processed i js :: l) = invokedMessages l := by
  simp [invokedMessages]

theorem handleTaskLoop_all_ok {TaskDef E Job : Type}
    (hm : Message → TaskDef → Except E (List Job)) (s2e : String → String)
    (taskId : String) (runs : List Run) (root_url : String) (td : TaskDef)
    (h : ∀ msg d, ∃ v, hm msg d = Except.ok v)
    (rs : List Run) (taskRuns : Option (List Job)) :
    (handleTaskLoop hm s2e taskId runs root_url td taskRuns rs).2 = false ∧
    invokedMessages (handleTaskLoop hm s2e taskId runs root_url td taskRuns rs).1
      = rs.map (mkMessage s2e taskId runs root_url) := by
  induction rs generalizing taskRuns with
  | nil => simp [handleTaskLoop, invokedMessages]
  | cons run rest ih =>
    obtain ⟨v, hv⟩ := h (mkMessage s2e taskId runs root_url run) td
    have iht := ih (some v)
    constructor
    · cases hv0 : v.isEmpty <;>
        simp [handleTaskLoop, hv, hv0, iht.1]
    · cases hv0 : v.isEmpty <;>
        simp [handleTaskLoop, hv, hv0, invokedMessages_cons_invoked,
              invokedMessages_cons_processed, iht.2]

/--
C6: when no normalization-collaborator invocation raises, `handleTask` invokes
the collaborator once per run in reverse chronological order (last list
element first), never aborts, and each invocation's message carries the
exchange looked up from that run's state, the task id, the task's *entire*
runs list, the selected run's `runId`, and the root url.
-/
theorem handleTask_reverse_order_messages {TaskDef E Job : Type}
    (hm : Message → TaskDef → Except E (List Job)) (s2e : String → String)
    (task : Task TaskDef) (root_url : String)
    (h : ∀ msg d, ∃ v, hm msg d = Except.ok v) :
    (handleTask hm s2e task root_url).2 = false ∧
    invokedMessages (handleTask hm s2e task root_url).1
      = task.status.runs.reverse.map (fun run =>
          { exchange := s2e run.state
            statusTaskId := task.status.taskId
            statusRuns := task.status.runs
            runId := run.runId
            root_url := root_url }) := by
  exact handleTaskLoop_all_ok hm s2e task.status.taskId task.status.runs root_url
    task.task h task.status.runs.reverse none

/-- Witness for C6 on a task with runs `[{runId 0, failed}, {runId 1,
completed}]` and a collaborator that always returns normally: run 1 is
visited first, then run 0, and both messages carry the whole runs list. -/
theorem handleTask_reverse_order_messages_witness :
    (handleTask (fun _ _ => (Except.ok [] : Except Unit (List Unit))) (fun s => s)
        ⟨⟨"T", [⟨0, "failed"⟩, ⟨1, "completed"⟩]⟩, ()⟩ "r").2 = false ∧
    invokedMessages (handleTask (fun _ _ => (Except.ok [] : Except Unit (List Unit)))
        (fun s => s) ⟨⟨"T", [⟨0, "failed"⟩, ⟨1, "completed"⟩]⟩, ()⟩ "r").1
      = [⟨"completed", "T", [⟨0, "failed"⟩, ⟨1, "completed"⟩], 1, "r"⟩,
         ⟨"failed", "T", [⟨0, "failed"⟩, ⟨1, "completed"⟩], 0, "r"⟩] := by
  have h := handleTask_reverse_order_messages
    (fun _ _ => (Except.ok [] : Except Unit (List Unit))) (fun s => s)
    ⟨⟨"T", [⟨0, "failed"⟩, ⟨1, "completed"⟩]⟩, ()⟩ "r" (fun _ _ => ⟨[], rfl⟩)
  exact ⟨h.1, h.2.trans (by decide)⟩

/-! ### C7: query_data merge-base correction -/

theorem findEventBaseSha_eq_find (fc : String → CommitData) (dflt : String)
    (parents : List ParentRef) :
    findEventBaseSha fc dflt parents
      = match parents.find? (fun p => !(fc p.url).parents.isEmpty) with
        | some p => p.sha
        | none => dflt := by
  induction parents with
  | nil => rfl
  | cons p rest ih =>
    by_cases h : (fc p.url).parents.isEmpty
    · simp [findEventBaseSha, h, ih]
    · simp [findEventBaseSha, h]

/--
C7: when the first comparison response carries a `merge_base_commit`,
`query_data` walks that commit's parents in API order, takes as corrected
base the sha of the first parent that itself has at least one parent — or the
original branch when no parent qualifies — and its returned commits come from
a second comparison call issued with that corrected base.
-/
theorem query_data_merge_base_correction
    (compare : String → String → CompareResponse) (fetchCommit : String → CommitData)
    (branch commit : String) (mbc : CommitData)
    (hmb : (compare branch commit).merge_base_commit = some mbc) :
    (query_data compare fetchCommit branch commit).1
      = (match mbc.parents.find? (fun p => !(fetchCommit p.url).parents.isEmpty) with
         | some p => p.sha
         | none => branch) ∧
    (query_data compare fetchCommit branch commit).2
      = (compare (query_data compare fetchCommit branch commit).1 commit).commits.map
          toOutCommit := by
  have h1 : (query_data compare fetchCommit branch commit).1
      = findEventBaseSha fetchCommit branch mbc.parents := by
    simp [query_data, hmb]
  refine ⟨h1.trans (findEventBaseSha_eq_find fetchCommit branch mbc.parents), ?_⟩
  rw [h1]
  simp [query_data, hmb]

/-- Comparison-API stub for the C7 witness: comparing from the branch `main`
reports a merge-base commit whose parents are `[P1, P2]`; any other base
yields a token response with one commit. -/
def compareW : String → String → CompareResponse := fun base _ =>
  if base = "main" then
    { merge_base_commit := some { parents := [⟨"u1", "sha1"⟩, ⟨"u2", "sha2"⟩] }
      commits := [⟨"m1", "a1", "c1", "s1"⟩] }
  else
    { merge_base_commit := none, commits := [⟨"m2", "a2", "c2", "s2"⟩] }

/-- Commit-fetch stub for the C7 witness: parent `P1` (url `u1`) is a root
commit with no parents, parent `P2` (url `u2`) has one parent. -/
def fetchCommitW : String → CommitData := fun u =>
  if u = "u1" then { parents := [] } else { parents := [⟨"ux", "shax"⟩] }

/-- Witness for C7: with parents `[P1 (no parents), P2 (has parents)]` the
corrected base is `P2`'s sha and the commits come from the second comparison
call made with it. -/
theorem query_data_merge_base_correction_witness :
    (query_data compareW fetchCommitW "main" "head").1 = "sha2" ∧
    (query_data compareW fetchCommitW "main" "head").2
      = [⟨"m2", "a2", "c2", "s2"⟩] := by
  have h := query_data_merge_base_correction compareW fetchCommitW "main" "head"
    { parents := [⟨"u1", "sha1"⟩, ⟨"u2", "sha2"⟩] } (by decide)
  exact ⟨h.1.trans (by decide), h.2.trans (by decide)⟩

/-! ### C9: ingestGitPush ignores its project argument -/

/--
C9: `ingestGitPush` resolves repository metadata for the literal name
`"fenix"` no matter which project it is given: its result is independent of
the `project` argument, and equals the push load built from
`repo_meta(db, "fenix")`.
-/
theorem ingestGitPush_project_independent
    (compare : String → String → CompareResponse) (fetchCommit : String → CommitData)
    (db : List RepositoryRow) (project1 project2 commitSha : String) :
    ingestGitPush compare fetchCommit db project1 commitSha
      = ingestGitPush compare fetchCommit db project2 commitSha ∧
    ingestGitPush compare fetchCommit db project1 commitSha
      = (repo_meta db "fenix").map (fun r =>
          { pulse := github_push_to_pulse compare fetchCommit r commitSha,
            tc_root_url := r.tc_root_url }) := by
  constructor
  · rfl
  · cases h : repo_meta db "fenix" <;> simp [ingestGitPush, h]

/-! ### C1: exception handling across the runs of one task -/

/--
C1: contrary to the claim, a run whose `handleMessage` invocation raises does
not merely get logged and skipped.  On the task `T1` with runs
`[{runId 0}, {runId 1}]`:
with a collaborator that always raises, the very first (newest) run leaves
`taskRuns` unbound, `if taskRuns:` raises an uncaught `UnboundLocalError`,
`handleTask` aborts, and run 0 is never classified (only run 1's message was
ever sent); with a collaborator that succeeds on run 1 and raises on run 0,
run 0's iteration re-processes run 1's stale job payloads (`processed 0 [()]`
appears in the trace although the collaborator raised for run 0).
-/
theorem handleTask_failing_run_aborts_and_reuses_stale_jobs :
    (handleTask (fun _ _ => (Except.error () : Except Unit (List Unit))) (fun s => s)
        ⟨⟨"T1", [⟨0, "completed"⟩, ⟨1, "failed"⟩]⟩, ()⟩ "r").2 = true ∧
    invokedMessages (handleTask (fun _ _ => (Except.error () : Except Unit (List Unit)))
        (fun s => s) ⟨⟨"T1", [⟨0, "completed"⟩, ⟨1, "failed"⟩]⟩, ()⟩ "r").1
      = [⟨"failed", "T1", [⟨0, "completed"⟩, ⟨1, "failed"⟩], 1, "r"⟩] ∧
    Ev.processed 0 [()] ∈ (handleTask
        (fun (msg : Message) (_ : Unit) => if msg.runId = 1
          then (Except.ok [()] : Except Unit (List Unit)) else Except.error ())
        (fun s => s) ⟨⟨"T1", [⟨0, "completed"⟩, ⟨1, "failed"⟩]⟩, ()⟩ "r").1 ∧
    (fun (msg : Message) (_ : Unit) => if msg.runId = 1
          then (Except.ok [()] : Except Unit (List Unit)) else Except.error ())
        ⟨"completed", "T1", [⟨0, "completed"⟩, ⟨1, "failed"⟩], 0, "r"⟩ ()
      = Except.error () := by
  refine ⟨by decide, by decide, by decide, rfl⟩

end Treeherder
